import Mathlib

/-!
Verification of the frame-processing pipeline of `process.py`
(RemoveJapaneseTextFromVideo): the region detector adapter, the frame
scheduler and region cache, the redactor, and the audio remux fallback,
embedded shallowly in Lean.  External collaborators (EasyOCR, OpenCV's
Gaussian blur, ffmpeg, the filesystem) are modelled as injected data or
as explicit outcome/effect values, exactly where the Python code calls
out to them; everything the Python code itself computes is translated
directly.
-/

namespace RemoveText

/-- An axis-aligned box `(x1, y1, x2, y2)` as appended to `boxes` in
`detect_text_boxes` and consumed by `blur_or_black`. -/
structure Region where
  x1 : Int
  y1 : Int
  x2 : Int
  y2 : Int
deriving Repr, DecidableEq

/-- One element of the list `reader.readtext(frame, detail=1)` returns:
a polygon (list of points), the recognised text, and a confidence.
Coordinates are the integers produced by `int(p[0])` / `int(p[1])`;
the confidence is modelled as a rational. -/
structure OcrResult where
  bbox : List (Int × Int)
  text : String
  conf : Rat
deriving Repr

/-- `max(0, min(bound, v))`: the clamping expression used at lines
62–65 and 105–108 of `process.py` (with `bound = w - 1` or `h - 1`). -/
def clampCoord (bound v : Int) : Int := max 0 (min bound v)

/-- Lines 99–108 of `detect_text_boxes` for one OCR tuple: the
polygon's bounding box (`x1, x2 = min(xs), max(xs)` and likewise for
`ys`) clamped to `[0, w-1] × [0, h-1]`.  `min` / `max` of an empty
polygon raises `ValueError` in Python, hence `none`. -/
def tupleRegion (w h : Nat) (res : OcrResult) : Option Region :=
  match (res.bbox.map Prod.fst).min?, (res.bbox.map Prod.fst).max?,
        (res.bbox.map Prod.snd).min?, (res.bbox.map Prod.snd).max? with
  | some mnx, some mxx, some mny, some mxy =>
    some { x1 := clampCoord ((w : Int) - 1) mnx
         , y1 := clampCoord ((h : Int) - 1) mny
         , x2 := clampCoord ((w : Int) - 1) mxx
         , y2 := clampCoord ((h : Int) - 1) mxy }
  | _, _, _, _ => none

/-- `detect_text_boxes` (lines 84–117): filter by confidence, take the
polygon's clamped bounding box, drop degenerate and under-sized boxes.
The whole call is `Option`-valued: `none` is the run aborting with an
exception (empty polygon). -/
def detect_text_boxes (w h : Nat) (conf_thresh : Rat) : List OcrResult → Option (List Region)
  | [] => some []
  | res :: rest =>
    if res.conf < conf_thresh then
      detect_text_boxes w h conf_thresh rest
    else
      match tupleRegion w h res with
      | none => none
      | some r =>
        if r.x2 ≤ r.x1 ∨ r.y2 ≤ r.y1 then
          detect_text_boxes w h conf_thresh rest
        else if r.x2 - r.x1 < 10 ∨ r.y2 - r.y1 < 10 then
          detect_text_boxes w h conf_thresh rest
        else
          (detect_text_boxes w h conf_thresh rest).map (fun bs => r :: bs)

/-- A box is clamped to the frame bounds and non-degenerate: the
invariant the cache is claimed to maintain for everything it hands to
the redactor. -/
def RegionGood (w h : Nat) (r : Region) : Prop :=
  0 ≤ r.x1 ∧ r.x1 < r.x2 ∧ r.x2 ≤ (w : Int) - 1 ∧
  0 ≤ r.y1 ∧ r.y1 < r.y2 ∧ r.y2 ≤ (h : Int) - 1

instance (w h : Nat) (r : Region) : Decidable (RegionGood w h r) := by
  unfold RegionGood; infer_instance

/-- The `last_boxes` / `empty_streak` pair of `main`'s loop. -/
structure CacheState where
  regions : List Region
  emptyStreak : Nat
deriving Repr, DecidableEq

/-- `last_boxes = []`, `empty_streak = 0` (lines 184–185). -/
def initialCache : CacheState := ⟨[], 0⟩

/-- The cache update performed on a detection frame (lines 202–212):
non-empty result replaces the boxes and resets the streak; empty result
bumps the streak and clears the boxes once the streak reaches 3. -/
def cacheUpdate (s : CacheState) (newBoxes : List Region) : CacheState :=
  if newBoxes.isEmpty then
    let streak := s.emptyStreak + 1
    if 3 ≤ streak then { regions := [], emptyStreak := streak }
    else { regions := s.regions, emptyStreak := streak }
  else { regions := newBoxes, emptyStreak := 0 }

/-- `frame_idx % args.detect_every == 0` (line 194).  Python's `%`
raises `ZeroDivisionError` when `detect_every` is 0, so the test is
`none` there. -/
def isDetectionFrame (frameIdx detectEvery : Nat) : Option Bool :=
  if detectEvery = 0 then none
  else some (frameIdx % detectEvery == 0)

/-- The per-frame mutable state of `main`'s loop. -/
structure LoopState where
  frameIdx : Nat
  cache : CacheState
deriving Repr, DecidableEq

/-- `frame_idx = 0` and the empty cache, before the first iteration. -/
def initialLoopState : LoopState := ⟨0, initialCache⟩

/-- One iteration of `main`'s while loop (lines 193–217), as far as the
scheduler and the cache are concerned.  `ocr` is what `reader.readtext`
would return for this frame; it is consulted only on detection frames.
`none` is the iteration raising (zero interval, or a detector
exception). -/
def loopStep (w h : Nat) (confThresh : Rat) (detectEvery : Nat)
    (ocr : List OcrResult) (s : LoopState) : Option LoopState :=
  match isDetectionFrame s.frameIdx detectEvery with
  | none => none
  | some true =>
    match detect_text_boxes w h confThresh ocr with
    | none => none
    | some newBoxes => some ⟨s.frameIdx + 1, cacheUpdate s.cache newBoxes⟩
  | some false => some ⟨s.frameIdx + 1, s.cache⟩

/-- `main`'s loop over a finite list of per-frame OCR outcomes. -/
def runLoop (w h : Nat) (confThresh : Rat) (detectEvery : Nat) :
    List (List OcrResult) → LoopState → Option LoopState
  | [], s => some s
  | ocr :: rest, s =>
    match loopStep w h confThresh detectEvery ocr s with
    | none => none
    | some s' => runLoop w h confThresh detectEvery rest s'

/-- `--mode {blur,black}`. -/
inductive Mode
  | blur
  | black
deriving Repr, DecidableEq

/-- A pixel buffer: value at row `y`, column `x`, channel `c`. -/
abbrev PixelMap := Nat → Nat → Nat → Nat

/-- A frame: `h, w = frame.shape[:2]` plus its pixels. -/
structure Frame where
  h : Nat
  w : Nat
  data : PixelMap

/-- `cv2.GaussianBlur` is an external collaborator: any function from a
region-of-interest buffer (with its height, width and kernel size) to a
same-shaped buffer. -/
abbrev BlurFn := PixelMap → Nat → Nat → Nat → PixelMap

/-- `ksize = max(15, (x2 - x1) // 3 | 1)` then `+1` if even
(lines 74–75), on the clamped region width. -/
def blurKernelSize (rw : Nat) : Nat :=
  let ksize := max 15 (rw / 3 ||| 1)
  if ksize % 2 = 1 then ksize else ksize + 1

/-- The body of `blur_or_black`'s loop for one box (lines 60–79): clamp
to the frame, skip degenerate boxes, and overwrite the half-open slice
`frame[y1:y2, x1:x2]` with the blurred region or with zeros. -/
def applyBox (gauss : BlurFn) (mode : Mode) (f : Frame) (r : Region) : Frame :=
  let x1 := clampCoord ((f.w : Int) - 1) r.x1
  let x2 := clampCoord ((f.w : Int) - 1) r.x2
  let y1 := clampCoord ((f.h : Int) - 1) r.y1
  let y2 := clampCoord ((f.h : Int) - 1) r.y2
  if x2 ≤ x1 ∨ y2 ≤ y1 then f
  else
    match mode with
    | Mode.blur =>
      let ksize := blurKernelSize (x2 - x1).toNat
      let roi : PixelMap := fun ry rx c => f.data (y1.toNat + ry) (x1.toNat + rx) c
      let blurred := gauss roi (y2 - y1).toNat (x2 - x1).toNat ksize
      { f with data := fun y x c =>
          if y1 ≤ (y : Int) ∧ (y : Int) < y2 ∧ x1 ≤ (x : Int) ∧ (x : Int) < x2 then
            blurred (y - y1.toNat) (x - x1.toNat) c
          else f.data y x c }
    | Mode.black =>
      { f with data := fun y x c =>
          if y1 ≤ (y : Int) ∧ (y : Int) < y2 ∧ x1 ≤ (x : Int) ∧ (x : Int) < x2 then 0
          else f.data y x c }

/-- `blur_or_black` (lines 57–81): apply every box in order. -/
def blur_or_black (gauss : BlurFn) (f : Frame) (boxes : List Region) (mode : Mode) : Frame :=
  boxes.foldl (applyBox gauss mode) f

/-- How the ffmpeg invocation in `mux_audio` can end: the binary is
absent (`FileNotFoundError`), it exits non-zero
(`CalledProcessError`), or it succeeds. -/
inductive MuxRun
  | toolMissing
  | toolFailed
  | success
deriving Repr, DecidableEq

/-- The externally visible actions `mux_audio` can take after the
ffmpeg call. -/
inductive MuxAction
  | printNotFound
  | printFailed
  | renameArtifactToOutput
  | deleteArtifact
  | deleteAttemptSwallowed
deriving Repr, DecidableEq

/-- `mux_audio` (lines 120–150), as the trace of actions it performs
after `subprocess.run`, for each outcome of the ffmpeg call and of the
`unlink` attempt.  `Except.error` would be an exception escaping the
function; every branch returns `Except.ok`. -/
def mux_audio (run : MuxRun) (unlinkRaises : Bool) : Except String (List MuxAction) :=
  match run with
  | MuxRun.toolMissing =>
    Except.ok [MuxAction.printNotFound, MuxAction.renameArtifactToOutput]
  | MuxRun.toolFailed =>
    Except.ok [MuxAction.printFailed, MuxAction.renameArtifactToOutput]
  | MuxRun.success =>
    if unlinkRaises then Except.ok [MuxAction.deleteAttemptSwallowed]
    else Except.ok [MuxAction.deleteArtifact]

/-! ## Helper lemmas -/

theorem lor_one_mod_two (n : Nat) : (n ||| 1) % 2 = 1 := by
  have h : (n ||| 1).testBit 0 = true := by
    rw [Nat.testBit_lor]
    simp
  rw [Nat.testBit_zero] at h
  exact of_decide_eq_true h

/-- A non-degenerate clamped bounding box lies inside the frame. -/
theorem tupleRegion_good (w h : Nat) (res : OcrResult) (r : Region)
    (ht : tupleRegion w h res = some r)
    (hnd : ¬ (r.x2 ≤ r.x1 ∨ r.y2 ≤ r.y1)) :
    RegionGood w h r := by
  unfold tupleRegion at ht
  split at ht
  · cases ht
    simp only [RegionGood, clampCoord] at *
    omega
  · exact Option.noConfusion ht

/-- Soundness of the detector adapter: every box it returns is clamped,
non-degenerate, at least 10×10, and comes from an input tuple whose
confidence passed the threshold. -/
theorem detect_text_boxes_sound (w h : Nat) (thresh : Rat) (results : List OcrResult) :
    ∀ boxes, detect_text_boxes w h thresh results = some boxes →
      ∀ r ∈ boxes,
        RegionGood w h r ∧ 10 ≤ r.x2 - r.x1 ∧ 10 ≤ r.y2 - r.y1 ∧
        ∃ res ∈ results, thresh ≤ res.conf ∧ tupleRegion w h res = some r := by
  induction results with
  | nil =>
    intro boxes hdet r hr
    simp only [detect_text_boxes, Option.some.injEq] at hdet
    subst hdet
    simp at hr
  | cons res rest ih =>
    intro boxes hdet r hr
    simp only [detect_text_boxes] at hdet
    split at hdet
    · obtain ⟨hg, h10x, h10y, res', hmem, hconf, ht⟩ := ih boxes hdet r hr
      exact ⟨hg, h10x, h10y, res', List.mem_cons_of_mem _ hmem, hconf, ht⟩
    · rename_i hc
      split at hdet
      · exact Option.noConfusion hdet
      · rename_i r0 ht0
        split at hdet
        · obtain ⟨hg, h10x, h10y, res', hmem, hconf, ht⟩ := ih boxes hdet r hr
          exact ⟨hg, h10x, h10y, res', List.mem_cons_of_mem _ hmem, hconf, ht⟩
        · rename_i hnd
          split at hdet
          · obtain ⟨hg, h10x, h10y, res', hmem, hconf, ht⟩ := ih boxes hdet r hr
            exact ⟨hg, h10x, h10y, res', List.mem_cons_of_mem _ hmem, hconf, ht⟩
          · rename_i hsz
            obtain ⟨bs, hbs, hcons⟩ := Option.map_eq_some'.mp hdet
            subst hcons
            rcases List.mem_cons.mp hr with hr0 | hrbs
            · subst hr0
              refine ⟨tupleRegion_good w h res r ht0 hnd, by omega, by omega,
                res, List.mem_cons_self _ _, not_lt.mp hc, ht0⟩
            · obtain ⟨hg, h10x, h10y, res', hmem, hconf, ht⟩ := ih bs hbs r hrbs
              exact ⟨hg, h10x, h10y, res', List.mem_cons_of_mem _ hmem, hconf, ht⟩

/-- Regions in an updated cache come from the new detection or from the
cache before the update. -/
theorem cacheUpdate_regions_cases (c : CacheState) (nb : List Region) (r : Region)
    (hr : r ∈ (cacheUpdate c nb).regions) : r ∈ nb ∨ r ∈ c.regions := by
  by_cases hnb : nb.isEmpty
  · by_cases h3 : 3 ≤ c.emptyStreak + 1
    · simp [cacheUpdate, hnb, h3] at hr
    · simp [cacheUpdate, hnb, h3] at hr
      exact Or.inr hr
  · simp [cacheUpdate, hnb] at hr
    exact Or.inl hr

/-- One loop iteration preserves the cache invariant. -/
theorem loopStep_preserves_good (w h : Nat) (t : Rat) (N : Nat) (ocr : List OcrResult)
    (s s' : LoopState) (hstep : loopStep w h t N ocr s = some s')
    (hgood : ∀ r ∈ s.cache.regions, RegionGood w h r) :
    ∀ r ∈ s'.cache.regions, RegionGood w h r := by
  unfold loopStep at hstep
  cases hd : isDetectionFrame s.frameIdx N with
  | none =>
    rw [hd] at hstep
    exact Option.noConfusion hstep
  | some b =>
    rw [hd] at hstep
    cases b with
    | false =>
      injection hstep with hs'
      subst hs'
      exact hgood
    | true =>
      cases hdet : detect_text_boxes w h t ocr with
      | none =>
        rw [hdet] at hstep
        exact Option.noConfusion hstep
      | some nb =>
        rw [hdet] at hstep
        injection hstep with hs'
        subst hs'
        intro r hr
        rcases cacheUpdate_regions_cases s.cache nb r hr with hrn | hro
        · exact (detect_text_boxes_sound w h t ocr nb hdet r hrn).1
        · exact hgood r hro

/-- The whole loop preserves the cache invariant. -/
theorem runLoop_preserves_good (w h : Nat) (t : Rat) (N : Nat) (seq : List (List OcrResult)) :
    ∀ (s s' : LoopState), runLoop w h t N seq s = some s' →
      (∀ r ∈ s.cache.regions, RegionGood w h r) →
      ∀ r ∈ s'.cache.regions, RegionGood w h r := by
  induction seq with
  | nil =>
    intro s s' hrun hg
    injection hrun with hs'
    subst hs'
    exact hg
  | cons ocr rest ih =>
    intro s s' hrun hg
    simp only [runLoop] at hrun
    cases hstep : loopStep w h t N ocr s with
    | none =>
      rw [hstep] at hrun
      exact Option.noConfusion hrun
    | some s1 =>
      rw [hstep] at hrun
      exact ih s1 s' hrun (loopStep_preserves_good w h t N ocr s s1 hstep hg)

/-! ## Claim theorems -/

/-- C2: every region output by `detect_text_boxes` comes from a tuple
whose confidence reached the threshold, lies within
`[0, w-1] × [0, h-1]`, has `x1 < x2`, `y1 < y2`, and is at least
10×10. -/
theorem detect_boxes_spec (w h : Nat) (thresh : Rat) (results : List OcrResult)
    (boxes : List Region) (hw : 1 ≤ w) (hh : 1 ≤ h)
    (hdet : detect_text_boxes w h thresh results = some boxes) :
    ∀ r ∈ boxes,
      (0 ≤ r.x1 ∧ r.x2 ≤ (w : Int) - 1 ∧ 0 ≤ r.y1 ∧ r.y2 ≤ (h : Int) - 1) ∧
      r.x1 < r.x2 ∧ r.y1 < r.y2 ∧
      10 ≤ r.x2 - r.x1 ∧ 10 ≤ r.y2 - r.y1 ∧
      ∃ res ∈ results, thresh ≤ res.conf ∧ tupleRegion w h res = some r := by
  intro r hr
  obtain ⟨hg, hx, hy, hprov⟩ := detect_text_boxes_sound w h thresh results boxes hdet r hr
  obtain ⟨h1, h2, h3, h4, h5, h6⟩ := hg
  exact ⟨⟨h1, h3, h4, h6⟩, h2, h5, hx, hy, hprov⟩

/-- A sample OCR tuple: a 60×30 quadrilateral at full confidence. -/
def sampleOcr : OcrResult := ⟨[(0, 0), (60, 0), (60, 30), (0, 30)], "txt", 1⟩

/-- The region `detect_text_boxes` derives from `sampleOcr` in a
100×100 frame. -/
def sampleRegion : Region := ⟨0, 0, 60, 30⟩

/-- Witness for C2 on `sampleOcr` in a 100×100 frame. -/
theorem detect_boxes_spec_witness :
    (0 ≤ sampleRegion.x1 ∧ sampleRegion.x2 ≤ ((100 : Nat) : Int) - 1 ∧
      0 ≤ sampleRegion.y1 ∧ sampleRegion.y2 ≤ ((100 : Nat) : Int) - 1) ∧
    sampleRegion.x1 < sampleRegion.x2 ∧ sampleRegion.y1 < sampleRegion.y2 ∧
    10 ≤ sampleRegion.x2 - sampleRegion.x1 ∧ 10 ≤ sampleRegion.y2 - sampleRegion.y1 ∧
    ∃ res ∈ [sampleOcr], (0 : Rat) ≤ res.conf ∧ tupleRegion 100 100 res = some sampleRegion :=
  detect_boxes_spec 100 100 0 [sampleOcr] [sampleRegion] (by decide) (by decide)
    (by decide) sampleRegion (by decide)

/-- C4: the redactor only ever sees clamped, non-degenerate regions:
the invariant holds for the initial cache, is preserved by every loop
iteration, and therefore holds at every reachable state of the run. -/
theorem cache_invariant_good (w h : Nat) (t : Rat) (N : Nat) :
    (∀ r ∈ initialLoopState.cache.regions, RegionGood w h r) ∧
    (∀ (ocr : List OcrResult) (s s' : LoopState),
      loopStep w h t N ocr s = some s' →
      (∀ r ∈ s.cache.regions, RegionGood w h r) →
      ∀ r ∈ s'.cache.regions, RegionGood w h r) ∧
    (∀ (seq : List (List OcrResult)) (s' : LoopState),
      runLoop w h t N seq initialLoopState = some s' →
      ∀ r ∈ s'.cache.regions, RegionGood w h r) := by
  refine ⟨?_, ?_, ?_⟩
  · intro r hr
    simp [initialLoopState, initialCache] at hr
  · intro ocr s s' hstep hg
    exact loopStep_preserves_good w h t N ocr s s' hstep hg
  · intro seq s' hrun
    refine runLoop_preserves_good w h t N seq initialLoopState s' hrun ?_
    intro r hr
    simp [initialLoopState, initialCache] at hr

/-- C1: the region cache's transition function.  A detection result
with at least one region replaces the cached list and resets the
streak; an empty result bumps the streak, clearing the list once the
streak reaches 3 and keeping it otherwise; non-detection frames leave
both untouched; the initial state is the empty list with streak 0. -/
theorem cache_transition_correct (c : CacheState) (det : List Region)
    (w h : Nat) (thresh : Rat) (N : Nat) (ocr : List OcrResult) (s : LoopState) :
    (det ≠ [] → cacheUpdate c det = { regions := det, emptyStreak := 0 }) ∧
    (det = [] → 3 ≤ c.emptyStreak + 1 →
      cacheUpdate c det = { regions := [], emptyStreak := c.emptyStreak + 1 }) ∧
    (det = [] → c.emptyStreak + 1 < 3 →
      cacheUpdate c det = { regions := c.regions, emptyStreak := c.emptyStreak + 1 }) ∧
    (isDetectionFrame s.frameIdx N = some false →
      loopStep w h thresh N ocr s = some ⟨s.frameIdx + 1, s.cache⟩) ∧
    initialLoopState = ⟨0, ⟨[], 0⟩⟩ := by
  refine ⟨?_, ?_, ?_, ?_, rfl⟩
  · intro hne
    cases det with
    | nil => exact absurd rfl hne
    | cons a l => simp [cacheUpdate]
  · intro he h3
    subst he
    simp [cacheUpdate, h3]
  · intro he h3
    subst he
    simp [cacheUpdate]
    omega
  · intro hdec
    simp [loopStep, hdec]

/-- C3: the audio remux step either renames the video-only artifact to
the final output (tool missing or tool failed, with a message, no
exception escaping) or, on success, deletes it (a failing deletion is
swallowed); never both. -/
theorem mux_rename_xor_delete (run : MuxRun) (uf : Bool) :
    ∃ acts, mux_audio run uf = Except.ok acts ∧
      ¬ (MuxAction.renameArtifactToOutput ∈ acts ∧ MuxAction.deleteArtifact ∈ acts) ∧
      ((run = MuxRun.toolMissing ∨ run = MuxRun.toolFailed) →
        MuxAction.renameArtifactToOutput ∈ acts ∧ MuxAction.deleteArtifact ∉ acts ∧
        (MuxAction.printNotFound ∈ acts ∨ MuxAction.printFailed ∈ acts)) ∧
      (run = MuxRun.success →
        MuxAction.renameArtifactToOutput ∉ acts ∧
        (uf = false → MuxAction.deleteArtifact ∈ acts) ∧
        (uf = true → MuxAction.deleteArtifact ∉ acts)) := by
  cases run <;> cases uf <;>
    exact ⟨_, rfl, by decide, by decide, by decide⟩

/-- C5: with a non-zero interval `N`, the detector is invoked on frame
`i` exactly when `i % N = 0`, and frame 0 is always a detection
frame. -/
theorem detection_schedule (N i : Nat) (w h : Nat) (thresh : Rat)
    (ocr : List OcrResult) (c : CacheState) (hN : 0 < N) :
    (isDetectionFrame i N = some true ↔ i % N = 0) ∧
    isDetectionFrame 0 N = some true ∧
    (i % N = 0 →
      loopStep w h thresh N ocr ⟨i, c⟩ =
        (detect_text_boxes w h thresh ocr).map (fun nb => ⟨i + 1, cacheUpdate c nb⟩)) ∧
    (i % N ≠ 0 → loopStep w h thresh N ocr ⟨i, c⟩ = some ⟨i + 1, c⟩) := by
  have hN' : N ≠ 0 := Nat.pos_iff_ne_zero.mp hN
  refine ⟨?_, ?_, ?_, ?_⟩
  · simp [isDetectionFrame, hN']
  · simp [isDetectionFrame, hN', Nat.zero_mod]
  · intro hz
    simp only [loopStep, isDetectionFrame, hN', if_neg hN', hz]
    cases hdet : detect_text_boxes w h thresh ocr <;> simp [hdet]
  · intro hz
    have hb : (i % N == 0) = false := beq_eq_false_iff_ne.mpr hz
    simp [loopStep, isDetectionFrame, hN', hb]

/-- Witness for C5 at `N = 10`, `i = 7`. -/
theorem detection_schedule_witness :
    (isDetectionFrame 7 10 = some true ↔ 7 % 10 = 0) ∧
    isDetectionFrame 0 10 = some true ∧
    (7 % 10 = 0 →
      loopStep 640 480 0 10 [] ⟨7, initialCache⟩ =
        (detect_text_boxes 640 480 0 []).map (fun nb => ⟨7 + 1, cacheUpdate initialCache nb⟩)) ∧
    (7 % 10 ≠ 0 → loopStep 640 480 0 10 [] ⟨7, initialCache⟩ = some ⟨7 + 1, initialCache⟩) :=
  detection_schedule 10 7 640 480 0 [] initialCache (by decide)

/-- C7: the blur kernel side length is always odd and at least 15, for
every region width. -/
theorem blur_kernel_odd_ge15 (rw : Nat) :
    blurKernelSize rw % 2 = 1 ∧ 15 ≤ blurKernelSize rw := by
  have hm : (rw / 3 ||| 1) % 2 = 1 := lor_one_mod_two _
  have hk : max 15 (rw / 3 ||| 1) % 2 = 1 := by omega
  simp only [blurKernelSize]
  rw [if_pos hk]
  exact ⟨hk, le_max_left _ _⟩

/-- C10: with `--detect-every 0`, the detection-frame test is a
division by zero: the very first loop iteration (and any iteration)
fails, so a run with at least one frame produces no final state. -/
theorem zero_interval_raises (w h : Nat) (thresh : Rat) (ocr : List OcrResult)
    (s : LoopState) (rest : List (List OcrResult)) :
    isDetectionFrame s.frameIdx 0 = none ∧
    loopStep w h thresh 0 ocr s = none ∧
    runLoop w h thresh 0 (ocr :: rest) initialLoopState = none := by
  refine ⟨rfl, rfl, ?_⟩
  simp [runLoop, loopStep, isDetectionFrame]

/-! ## Redactor lemmas -/

/-- Whether, in mode `black`, the box `r` writes a zero at pixel
`(y, x)` of a `w × h` frame: the clamped box is non-degenerate and the
pixel is inside the half-open slice `[y1, y2) × [x1, x2)`. -/
def blackCovers (w h : Nat) (r : Region) (y x : Nat) : Bool :=
  let x1 := clampCoord ((w : Int) - 1) r.x1
  let x2 := clampCoord ((w : Int) - 1) r.x2
  let y1 := clampCoord ((h : Int) - 1) r.y1
  let y2 := clampCoord ((h : Int) - 1) r.y2
  decide (¬ (x2 ≤ x1 ∨ y2 ≤ y1) ∧
    (y1 ≤ (y : Int) ∧ (y : Int) < y2 ∧ x1 ≤ (x : Int) ∧ (x : Int) < x2))

/-- `applyBox` never changes the frame's dimensions. -/
theorem applyBox_dims (g : BlurFn) (m : Mode) (f : Frame) (r : Region) :
    (applyBox g m f r).h = f.h ∧ (applyBox g m f r).w = f.w := by
  cases m <;> simp only [applyBox] <;> split <;> exact ⟨rfl, rfl⟩

/-- Pixel-level description of one `black` box. -/
theorem applyBox_black_data (g : BlurFn) (f : Frame) (r : Region) (y x c : Nat) :
    (applyBox g Mode.black f r).data y x c =
      if blackCovers f.w f.h r y x then 0 else f.data y x c := by
  simp only [applyBox, blackCovers, decide_eq_true_eq]
  by_cases hdeg : clampCoord ((f.w : Int) - 1) r.x2 ≤ clampCoord ((f.w : Int) - 1) r.x1 ∨
      clampCoord ((f.h : Int) - 1) r.y2 ≤ clampCoord ((f.h : Int) - 1) r.y1
  · simp [hdeg]
  · by_cases hin :
        clampCoord ((f.h : Int) - 1) r.y1 ≤ (y : Int) ∧
        (y : Int) < clampCoord ((f.h : Int) - 1) r.y2 ∧
        clampCoord ((f.w : Int) - 1) r.x1 ≤ (x : Int) ∧
        (x : Int) < clampCoord ((f.w : Int) - 1) r.x2
    · simp [hdeg, hin]
    · simp [hdeg, hin]

/-- Pixel-level description of `blur_or_black` in mode `black`: a
pixel is zeroed exactly when some box covers it, and is untouched
otherwise; the dimensions are kept. -/
theorem black_char (g : BlurFn) (boxes : List Region) :
    ∀ f : Frame,
      blur_or_black g f boxes Mode.black =
        { h := f.h, w := f.w,
          data := fun y x c =>
            if boxes.any (fun r => blackCovers f.w f.h r y x) then 0
            else f.data y x c } := by
  induction boxes with
  | nil =>
    intro f
    simp only [blur_or_black, List.foldl_nil, List.any_nil, Bool.false_eq_true,
      if_false]
  | cons b bs ih =>
    intro f
    have hstep : blur_or_black g f (b :: bs) Mode.black =
        blur_or_black g (applyBox g Mode.black f b) bs Mode.black := rfl
    rw [hstep, ih (applyBox g Mode.black f b)]
    obtain ⟨hh, hw⟩ := applyBox_dims g Mode.black f b
    rw [hh, hw]
    have hdata : (fun y x c =>
        if bs.any (fun r => blackCovers f.w f.h r y x) then 0
        else (applyBox g Mode.black f b).data y x c) =
        (fun y x c =>
          if (b :: bs).any (fun r => blackCovers f.w f.h r y x) then 0
          else f.data y x c) := by
      funext y x c
      rw [applyBox_black_data, List.any_cons]
      by_cases hb : blackCovers f.w f.h b y x
      · by_cases hbs : bs.any (fun r => blackCovers f.w f.h r y x) <;>
          simp [hb, hbs]
      · by_cases hbs : bs.any (fun r => blackCovers f.w f.h r y x) <;>
          simp [hb, hbs]
    rw [hdata]

/-- The pixel `(y, x)` lies inside the clamped (closed) box of `r` in
a `w × h` frame: outside this set `blur_or_black` writes nothing. -/
def inClampedBox (w h : Nat) (r : Region) (y x : Nat) : Prop :=
  clampCoord ((h : Int) - 1) r.y1 ≤ (y : Int) ∧
  (y : Int) ≤ clampCoord ((h : Int) - 1) r.y2 ∧
  clampCoord ((w : Int) - 1) r.x1 ≤ (x : Int) ∧
  (x : Int) ≤ clampCoord ((w : Int) - 1) r.x2

instance (w h : Nat) (r : Region) (y x : Nat) : Decidable (inClampedBox w h r y x) := by
  unfold inClampedBox
  infer_instance

/-- `applyBox` leaves every pixel outside the clamped box alone, in
both modes. -/
theorem applyBox_outside (g : BlurFn) (m : Mode) (f : Frame) (r : Region) (y x c : Nat)
    (hout : ¬ inClampedBox f.w f.h r y x) :
    (applyBox g m f r).data y x c = f.data y x c := by
  have hcond : ¬ (clampCoord ((f.h : Int) - 1) r.y1 ≤ (y : Int) ∧
      (y : Int) < clampCoord ((f.h : Int) - 1) r.y2 ∧
      clampCoord ((f.w : Int) - 1) r.x1 ≤ (x : Int) ∧
      (x : Int) < clampCoord ((f.w : Int) - 1) r.x2) := by
    intro hin
    exact hout ⟨hin.1, le_of_lt hin.2.1, hin.2.2.1, le_of_lt hin.2.2.2⟩
  cases m <;> simp only [applyBox] <;> split <;> simp [hcond]

/-- Clamping a value already inside the range is the identity. -/
theorem clampCoord_eq_self (bound v : Int) (h0 : 0 ≤ v) (hb : v ≤ bound) :
    clampCoord bound v = v := by
  unfold clampCoord
  omega

/-- A blur collaborator used for concrete witnesses: returns the
region-of-interest unchanged. -/
def blurId : BlurFn := fun roi _ _ _ => roi

/-- A concrete 3×3 frame whose pixels are all 1. -/
def frame3 : Frame := ⟨3, 3, fun _ _ _ => 1⟩

/-- C8: mode `black` is idempotent: blacking out the same region list
twice equals doing it once. -/
theorem black_idempotent (g : BlurFn) (f : Frame) (boxes : List Region) :
    blur_or_black g (blur_or_black g f boxes Mode.black) boxes Mode.black =
      blur_or_black g f boxes Mode.black := by
  rw [black_char g boxes f, black_char g boxes]
  simp only [Frame.mk.injEq, true_and]
  funext y x c
  by_cases hcov : boxes.any (fun r => blackCovers f.w f.h r y x) <;> simp [hcov]

/-- C6 counterexample: in a 3×3 all-ones frame, blacking out the
clamped non-degenerate region `(0, 0, 2, 2)` leaves the boundary pixel
`(y, x) = (2, 2)` at value 1, so not every pixel with
`x1 ≤ x ≤ x2` and `y1 ≤ y ≤ y2` is set to 0. -/
theorem black_boundary_not_cleared :
    ¬ (∀ y x c : Nat,
        ((0 : Int) ≤ (x : Int) ∧ (x : Int) ≤ 2 ∧ (0 : Int) ≤ (y : Int) ∧ (y : Int) ≤ 2) →
        (blur_or_black blurId frame3 [⟨0, 0, 2, 2⟩] Mode.black).data y x c = 0) := by
  intro hcl
  have hzero := hcl 2 2 0 (by norm_num)
  have hone : (blur_or_black blurId frame3 [⟨0, 0, 2, 2⟩] Mode.black).data 2 2 0 = 1 := by
    decide
  rw [hzero] at hone
  exact Nat.noConfusion hone

/-- C6 (amended): in mode `black`, for every region in the list that is
clamped and non-degenerate, every pixel of the half-open slice
`[y1, y2) × [x1, x2)` is set to 0 across all channels; the boundary row
`y2` and boundary column `x2` are excluded. -/
theorem black_region_half_open (g : BlurFn) (f : Frame) (boxes : List Region) (r : Region)
    (hr : r ∈ boxes) (hgood : RegionGood f.w f.h r) (y x c : Nat)
    (hy1 : r.y1 ≤ (y : Int)) (hy2 : (y : Int) < r.y2)
    (hx1 : r.x1 ≤ (x : Int)) (hx2 : (x : Int) < r.x2) :
    (blur_or_black g f boxes Mode.black).data y x c = 0 := by
  obtain ⟨h1, h2, h3, h4, h5, h6⟩ := hgood
  have e1 : clampCoord ((f.w : Int) - 1) r.x1 = r.x1 :=
    clampCoord_eq_self _ _ h1 (by omega)
  have e2 : clampCoord ((f.w : Int) - 1) r.x2 = r.x2 :=
    clampCoord_eq_self _ _ (by omega) h3
  have e3 : clampCoord ((f.h : Int) - 1) r.y1 = r.y1 :=
    clampCoord_eq_self _ _ h4 (by omega)
  have e4 : clampCoord ((f.h : Int) - 1) r.y2 = r.y2 :=
    clampCoord_eq_self _ _ (by omega) h6
  have hcov : blackCovers f.w f.h r y x = true := by
    simp only [blackCovers, e1, e2, e3, e4, decide_eq_true_eq]
    exact ⟨by omega, hy1, hy2, hx1, hx2⟩
  have hany : boxes.any (fun b => blackCovers f.w f.h b y x) = true :=
    List.any_eq_true.mpr ⟨r, hr, hcov⟩
  rw [black_char]
  show (if boxes.any (fun b => blackCovers f.w f.h b y x) then (0 : Nat)
    else f.data y x c) = 0
  rw [hany]
  rfl

/-- Witness for C6 (amended): interior pixel `(1, 1)` of the region
`(0, 0, 2, 2)` in the all-ones 3×3 frame is cleared. -/
theorem black_region_half_open_witness :
    (blur_or_black blurId frame3 [⟨0, 0, 2, 2⟩] Mode.black).data 1 1 0 = 0 :=
  black_region_half_open blurId frame3 [⟨0, 0, 2, 2⟩] ⟨0, 0, 2, 2⟩ (by decide)
    (by decide) 1 1 0 (by decide) (by decide) (by decide) (by decide)

/-- C9: the redactor changes no pixel outside the union of the clamped
boxes, in either mode, and never changes the frame's dimensions. -/
theorem redactor_frame_condition (g : BlurFn) (boxes : List Region) (m : Mode) :
    ∀ f : Frame,
      ((blur_or_black g f boxes m).h = f.h ∧ (blur_or_black g f boxes m).w = f.w) ∧
      (∀ y x c : Nat, (∀ r ∈ boxes, ¬ inClampedBox f.w f.h r y x) →
        (blur_or_black g f boxes m).data y x c = f.data y x c) := by
  induction boxes with
  | nil => exact fun f => ⟨⟨rfl, rfl⟩, fun y x c _ => rfl⟩
  | cons b bs ih =>
    intro f
    have hstep : blur_or_black g f (b :: bs) m =
        blur_or_black g (applyBox g m f b) bs m := rfl
    obtain ⟨hh, hw⟩ := applyBox_dims g m f b
    obtain ⟨⟨ihh, ihw⟩, ihd⟩ := ih (applyBox g m f b)
    refine ⟨⟨?_, ?_⟩, ?_⟩
    · rw [hstep, ihh, hh]
    · rw [hstep, ihw, hw]
    · intro y x c hout
      rw [hstep]
      have hbs : ∀ r ∈ bs, ¬ inClampedBox (applyBox g m f b).w (applyBox g m f b).h r y x := by
        intro r hrbs
        rw [hh, hw]
        exact hout r (List.mem_cons_of_mem _ hrbs)
      rw [ihd y x c hbs]
      exact applyBox_outside g m f b y x c (hout b (List.mem_cons_self _ _))

end RemoveText
